import Mathlib

/- Verification development for the sofifa fc25 merger repository.

   The repository is a small desktop tool built around three operations:
   Load (DataManager.read), Merge (DataManager.merge_all) and Save
   (DataManager.save), plus a source registry (DataManager.add_file and the
   GUI reset).  The pipeline is embedded shallowly below: pandas DataFrames
   become the Table structure, Python exceptions become the PyErr type, the
   file system becomes an explicit FileSys value, and the external pandas
   readers and writers for xlsx and json are passed in as function arguments
   while the pipe-delimited txt format is modelled in full. -/

set_option maxHeartbeats 1000000

/-- Cell values held by a table: null (pandas NaN), integer, or string. -/
inductive Cell where
  | null : Cell
  | int : Int → Cell
  | str : String → Cell
deriving DecidableEq

/-- Table: ordered column names together with positional rows, mirroring a
pandas DataFrame as described by the data model of the spec. -/
structure Table where
  cols : List String
  rows : List (List Cell)
deriving DecidableEq

instance : Inhabited Table := ⟨⟨[], []⟩⟩

/-- Python exception values surfaced by the pipeline: FileNotFoundError,
ValueError and KeyError, each carrying its message. -/
inductive PyErr where
  | fileNotFound : String → PyErr
  | valueError : String → PyErr
  | keyError : String → PyErr
deriving DecidableEq

/-- Python exceptions arising inside the try block of DataManager.read before
the handlers re-wrap them: the pandas EmptyDataError, or any other exception
carrying its message. -/
inductive PyExc where
  | emptyData : PyExc
  | exc : String → PyExc
deriving DecidableEq

/-- Index of the first occurrence of a column name in a column list. -/
def colIdx (c : String) : List String → Nat
  | [] => 0
  | d :: ds => if d = c then 0 else colIdx c ds + 1

/-- Join-key value of a row of table t: the cell under the ID column. -/
def keyOf (t : Table) (row : List Cell) : Option Cell :=
  row.get? (colIdx "ID" t.cols)

/-- Rows of the right table whose ID equals the ID of the given left row, in
right-table order, as produced by the pandas hash join for how=left. -/
def matchRows (l r : Table) (row : List Cell) : List (List Cell) :=
  r.rows.filter (fun q => decide (keyOf r q = keyOf l row))

/-- Cells of a right-table row restricted to its non-ID columns. -/
def rightCells (r : Table) (q : List Cell) : List Cell :=
  ((r.cols.zip q).filter (fun p => decide (p.1 ≠ "ID"))).map Prod.snd

/-- Number of non-ID columns of the right table. -/
def rightWidth (r : Table) : Nat :=
  (r.cols.filter (fun c => decide (c ≠ "ID"))).length

/-- Output column names of pandas merge on ID with how=left: the left columns
followed by the right non-key columns, overlapping non-key names receiving the
default suffixes. -/
def mergedCols (l r : Table) : List String :=
  l.cols.map (fun c => if c ≠ "ID" ∧ r.cols.contains c then c ++ "_x" else c) ++
    (r.cols.filter (fun c => decide (c ≠ "ID"))).map
      (fun c => if l.cols.contains c then c ++ "_y" else c)

/-- Rows contributed by one left row in a left join: one output row per match,
or a single null-padded row when the right table has no matching ID. -/
def joinRowBlock (l r : Table) (row : List Cell) : List (List Cell) :=
  let ms := matchRows l r row
  if ms = [] then [row ++ List.replicate (rightWidth r) Cell.null]
  else ms.map (fun q => row ++ rightCells r q)

/-- Rows of the left join of l with r on ID, preserving left order. -/
def joinRows (l r : Table) : List (List Cell) → List (List Cell)
  | [] => []
  | row :: rest => joinRowBlock l r row ++ joinRows l r rest

/-- Model of pandas DataFrame.merge(on=ID, how=left) on frames that both
contain the ID column. -/
def joinTotal (l r : Table) : Table :=
  ⟨mergedCols l r, joinRows l r l.rows⟩

/-- Dtype class pandas assigns to the ID column of a file-loaded frame:
numeric (int64 or float64) when the frame has rows and every key cell is an
integer or a null, object otherwise (string and mixed columns; an empty frame
reads back with object dtype). -/
def keyIsNumeric (t : Table) : Bool :=
  !(t.rows.isEmpty) && t.rows.all (fun row =>
    match keyOf t row with
    | some (Cell.int _) => true
    | some Cell.null => true
    | _ => false)

/-- Message of the ValueError pandas raises when one merge key column is
numeric and the other is object; the dtype names in the message are fixed to
the int64-and-object form here. -/
def dtypeErrMsg : String :=
  "You are trying to merge on int64 and object columns for key \x27ID\x27. If you wish to proceed you should use pd.concat"

/-- Model of merged.merge(df, on=ID, how=left) as called by merge_all,
including the KeyError raised by the pandas join machinery when either frame
lacks the ID key column, and the ValueError it raises afterwards when the two
key columns fall in different dtype classes (numeric against object). -/
def pdMerge (l r : Table) : Except PyErr Table :=
  if "ID" ∈ l.cols then
    if "ID" ∈ r.cols then
      if keyIsNumeric l = keyIsNumeric r then .ok (joinTotal l r)
      else .error (.valueError dtypeErrMsg)
    else .error (.keyError "ID")
  else .error (.keyError "ID")

/-- Loop of DataManager.merge_all over the frames after the first one. -/
def mergeLoop (acc : Table) : List Table → Except PyErr Table
  | [] => .ok acc
  | d :: rest =>
    match pdMerge acc d with
    | .ok m => mergeLoop m rest
    | .error e => .error e

/-- DataManager.merge_all: ValueError when no frames were added, otherwise the
left-to-right fold of pandas left joins starting from the first frame. -/
def mergeAll (dfs : List Table) : Except PyErr Table :=
  match dfs with
  | [] => .error (.valueError "No files to merge.")
  | d :: rest => mergeLoop d rest

/-- Membership of the ID column survives a left join, because the left columns
are kept and the key column is never suffixed. -/
theorem joinTotal_id_mem {A B : Table} (h : "ID" ∈ A.cols) :
    "ID" ∈ (joinTotal A B).cols := by
  unfold joinTotal mergedCols
  refine List.mem_append_left _ ?_
  refine List.mem_map.2 ⟨"ID", h, ?_⟩
  simp

theorem append_x_ne_id (s : String) : s ++ "_x" ≠ "ID" := by
  intro h
  have hd := congrArg String.data h
  rw [String.data_append] at hd
  have hl := congrArg List.length hd
  rw [List.length_append] at hl
  have h2 : ("_x".data).length = 2 := by decide
  have h3 : ("ID".data).length = 2 := by decide
  rw [h2, h3] at hl
  have hs : s.data = [] := List.eq_nil_of_length_eq_zero (by omega)
  rw [hs] at hd
  simp at hd

theorem colIdx_lt_length {c : String} :
    ∀ {cols : List String}, c ∈ cols → colIdx c cols < cols.length := by
  intro cols
  induction cols with
  | nil => intro h; cases h
  | cons d ds ih =>
    intro h
    unfold colIdx
    by_cases hd : d = c
    · rw [if_pos hd]
      simp
    · rw [if_neg hd]
      have : c ∈ ds := by
        rcases List.mem_cons.1 h with h | h
        · exact absurd h.symm hd
        · exact h
      have := ih this
      simp only [List.length_cons]
      omega

theorem colIdx_map_append {f : String → String}
    (hf : ∀ c, f c = "ID" ↔ c = "ID") :
    ∀ (cols rest : List String), "ID" ∈ cols →
      colIdx "ID" (cols.map f ++ rest) = colIdx "ID" cols := by
  intro cols
  induction cols with
  | nil => intro rest h; cases h
  | cons d ds ih =>
    intro rest h
    rw [List.map_cons, List.cons_append]
    unfold colIdx
    by_cases hd : d = "ID"
    · rw [if_pos ((hf d).2 hd), if_pos hd]
    · rw [if_neg (fun hc => hd ((hf d).1 hc)), if_neg hd]
      have hds : "ID" ∈ ds := by
        rcases List.mem_cons.1 h with h | h
        · exact absurd h.symm hd
        · exact h
      rw [ih rest hds]

theorem colIdx_mergedCols {l r : Table} (hl : "ID" ∈ l.cols) :
    colIdx "ID" (mergedCols l r) = colIdx "ID" l.cols := by
  unfold mergedCols
  refine colIdx_map_append ?_ l.cols _ hl
  intro c
  constructor
  · intro hc
    by_cases hid : c = "ID"
    · exact hid
    · by_cases hmem : c ≠ "ID" ∧ r.cols.contains c
      · rw [if_pos hmem] at hc
        exact absurd hc (append_x_ne_id c)
      · rw [if_neg hmem] at hc
        exact hc
  · intro hc
    subst hc
    simp

theorem keyOf_append {l : Table} {row : List Cell}
    (hl : "ID" ∈ l.cols) (hlen : row.length = l.cols.length)
    (r : Table) (ext : List Cell) :
    keyOf (joinTotal l r) (row ++ ext) = keyOf l row := by
  unfold keyOf
  rw [show (joinTotal l r).cols = mergedCols l r from rfl, colIdx_mergedCols hl]
  have hidx : colIdx "ID" l.cols < row.length := by
    rw [hlen]
    exact colIdx_lt_length hl
  exact List.get?_append hidx

theorem joinRowBlock_ne_nil (l r : Table) (row : List Cell) :
    joinRowBlock l r row ≠ [] := by
  unfold joinRowBlock
  by_cases h : matchRows l r row = []
  · simp [h]
  · rw [if_neg h]
    simp [h]

theorem joinRows_eq_nil_iff (l r : Table) (rs : List (List Cell)) :
    joinRows l r rs = [] ↔ rs = [] := by
  cases rs with
  | nil => simp [joinRows]
  | cons a as =>
    simp only [joinRows, List.append_eq_nil]
    constructor
    · intro h
      exact absurd h.1 (joinRowBlock_ne_nil l r a)
    · intro h
      cases h

theorem mem_joinRows_of_block {l r : Table} {row x : List Cell}
    {rs : List (List Cell)} (hrow : row ∈ rs) (hx : x ∈ joinRowBlock l r row) :
    x ∈ joinRows l r rs := by
  induction rs with
  | nil => cases hrow
  | cons a as ih =>
    rcases List.mem_cons.1 hrow with h | h
    · subst h; exact List.mem_append_left _ hx
    · exact List.mem_append_right _ (ih h)

theorem mem_block_cases {l r : Table} {row x : List Cell}
    (hx : x ∈ joinRowBlock l r row) :
    x = row ++ List.replicate (rightWidth r) Cell.null ∨
      ∃ q ∈ r.rows, x = row ++ rightCells r q := by
  unfold joinRowBlock at hx
  by_cases h : matchRows l r row = []
  · rw [if_pos h] at hx
    exact Or.inl (List.mem_singleton.1 hx)
  · rw [if_neg h] at hx
    obtain ⟨q, hq, rfl⟩ := List.mem_map.1 hx
    have : q ∈ r.rows := (List.mem_filter.1 hq).1
    exact Or.inr ⟨q, this, rfl⟩

theorem exists_block_of_mem_joinRows {l r : Table} {x : List Cell} :
    ∀ {rs : List (List Cell)}, x ∈ joinRows l r rs →
      ∃ row ∈ rs, x ∈ joinRowBlock l r row := by
  intro rs
  induction rs with
  | nil => intro h; cases h
  | cons a as ih =>
    intro h
    rcases List.mem_append.1 h with h | h
    · exact ⟨a, List.mem_cons_self a as, h⟩
    · obtain ⟨row, hrow, hx⟩ := ih h
      exact ⟨row, List.mem_cons_of_mem a hrow, hx⟩

theorem bool_eq_of_iff {a b : Bool} (h : a = true ↔ b = true) : a = b := by
  cases a <;> cases b <;> simp_all

theorem zip_filter_length :
    ∀ (cols : List String) (q : List Cell), q.length = cols.length →
      (((cols.zip q).filter (fun p => decide (p.1 ≠ "ID"))).map Prod.snd).length =
        (cols.filter (fun c => decide (c ≠ "ID"))).length := by
  intro cols
  induction cols with
  | nil => intro q _; simp
  | cons c cs ih =>
    intro q hq
    cases q with
    | nil => simp at hq
    | cons e es =>
      simp only [List.length_cons] at hq
      have ihe := ih es (by omega)
      rw [List.zip_cons_cons, List.filter_cons, List.filter_cons]
      by_cases hc : c = "ID"
      · have h1 : (decide ((c, e).1 ≠ "ID")) = false := by simp [hc]
        rw [h1]
        simp only [Bool.false_eq_true, if_false]
        exact ihe
      · have h1 : (decide ((c, e).1 ≠ "ID")) = true := by simp [hc]
        rw [h1]
        simp only [if_true, List.map_cons, List.length_cons]
        rw [ihe]

theorem rightCells_length {r : Table} {q : List Cell}
    (hq : q.length = r.cols.length) :
    (rightCells r q).length = rightWidth r :=
  zip_filter_length r.cols q hq

theorem mergedCols_length (l r : Table) :
    (mergedCols l r).length = l.cols.length + rightWidth r := by
  unfold mergedCols rightWidth
  simp

theorem rowsWF_joinTotal {l r : Table}
    (hwl : ∀ row ∈ l.rows, row.length = l.cols.length)
    (hwr : ∀ q ∈ r.rows, q.length = r.cols.length) :
    ∀ x ∈ (joinTotal l r).rows, x.length = (joinTotal l r).cols.length := by
  intro x hx
  obtain ⟨row, hrow, hxb⟩ := exists_block_of_mem_joinRows hx
  rw [show (joinTotal l r).cols = mergedCols l r from rfl, mergedCols_length]
  rcases mem_block_cases hxb with rfl | ⟨q, hq, rfl⟩
  · rw [List.length_append, List.length_replicate, hwl row hrow]
  · rw [List.length_append, rightCells_length (hwr q hq), hwl row hrow]

theorem keyIsNumeric_joinTotal {l : Table} (r : Table) (hl : "ID" ∈ l.cols)
    (hwl : ∀ row ∈ l.rows, row.length = l.cols.length) :
    keyIsNumeric (joinTotal l r) = keyIsNumeric l := by
  unfold keyIsNumeric
  have hempty : (joinTotal l r).rows.isEmpty = l.rows.isEmpty := by
    refine bool_eq_of_iff ?_
    rw [List.isEmpty_iff, List.isEmpty_iff,
      show (joinTotal l r).rows = joinRows l r l.rows from rfl,
      joinRows_eq_nil_iff]
  rw [hempty]
  congr 1
  refine bool_eq_of_iff ?_
  rw [List.all_eq_true, List.all_eq_true]
  constructor
  · intro h row hrow
    obtain ⟨x, hxb⟩ := List.exists_mem_of_ne_nil _ (joinRowBlock_ne_nil l r row)
    have hxj : x ∈ (joinTotal l r).rows := mem_joinRows_of_block hrow hxb
    have := h x hxj
    rcases mem_block_cases hxb with rfl | ⟨q, _, rfl⟩ <;>
      rwa [keyOf_append hl (hwl row hrow)] at this
  · intro h x hx
    obtain ⟨row, hrow, hxb⟩ := exists_block_of_mem_joinRows hx
    have hkey := h row hrow
    rcases mem_block_cases hxb with rfl | ⟨q, _, rfl⟩ <;>
      rw [keyOf_append hl (hwl row hrow)] <;> exact hkey

theorem mergeLoop_fold (rest : List Table) :
    ∀ acc : Table, "ID" ∈ acc.cols →
      (∀ row ∈ acc.rows, row.length = acc.cols.length) →
      (∀ t ∈ rest, "ID" ∈ t.cols ∧
        (∀ row ∈ t.rows, row.length = t.cols.length) ∧
        keyIsNumeric t = keyIsNumeric acc) →
      mergeLoop acc rest = .ok (rest.foldl joinTotal acc) := by
  induction rest with
  | nil => intro acc _ _ _; rfl
  | cons d ds ih =>
    intro acc hacc hwacc hall
    obtain ⟨hd, hwd, hdt⟩ := hall d (List.mem_cons_self d ds)
    have hok : pdMerge acc d = .ok (joinTotal acc d) := by
      unfold pdMerge
      rw [if_pos hacc, if_pos hd, if_pos hdt.symm]
    rw [mergeLoop, hok, List.foldl_cons]
    refine ih (joinTotal acc d) (joinTotal_id_mem hacc)
      (rowsWF_joinTotal hwacc hwd) ?_
    intro t ht
    obtain ⟨h1, h2, h3⟩ := hall t (List.mem_cons_of_mem d ht)
    refine ⟨h1, h2, ?_⟩
    rw [h3, keyIsNumeric_joinTotal d hacc hwacc]

theorem joinRows_length (l r : Table) (rs : List (List Cell)) :
    (joinRows l r rs).length =
      (rs.map (fun row => max 1 (matchRows l r row).length)).sum := by
  induction rs with
  | nil => rfl
  | cons a as ih =>
    rw [joinRows, List.length_append, ih, List.map_cons, List.sum_cons]
    congr 1
    unfold joinRowBlock
    by_cases h : matchRows l r a = []
    · simp [h]
    · have hpos : 0 < (matchRows l r a).length := List.length_pos.2 h
      simp only [if_neg h, List.length_map]
      omega

/-- Property bundle the spec ascribes to one left-join step: accumulator rows
are preserved, matching right rows contribute their non-key cells, unmatched
rows are padded with nulls, and the join fans out one output row per match. -/
def LeftJoinStepSpec (A B : Table) : Prop :=
  (∀ row ∈ A.rows, ∃ tl, row ++ tl ∈ (joinTotal A B).rows) ∧
  (∀ row ∈ A.rows, ∀ q ∈ B.rows, keyOf B q = keyOf A row →
      row ++ rightCells B q ∈ (joinTotal A B).rows) ∧
  (∀ row ∈ A.rows, matchRows A B row = [] →
      row ++ List.replicate (rightWidth B) Cell.null ∈ (joinTotal A B).rows) ∧
  (joinTotal A B).rows.length =
    (A.rows.map (fun row => max 1 (matchRows A B row).length)).sum

/-- Conclusion of claim C1: merge_all is the left-to-right fold of left joins,
and every join step has the stated left-join semantics. -/
def MergeFoldSpec (dfs : List Table) : Prop :=
  mergeAll dfs = .ok (dfs.tail.foldl joinTotal dfs.headI) ∧
  ∀ A B : Table, "ID" ∈ A.cols → "ID" ∈ B.cols → LeftJoinStepSpec A B

theorem leftJoinStepSpec_holds (A B : Table) : LeftJoinStepSpec A B := by
  refine ⟨?_, ?_, ?_, ?_⟩
  · intro row hrow
    by_cases h : matchRows A B row = []
    · refine ⟨List.replicate (rightWidth B) Cell.null, ?_⟩
      refine mem_joinRows_of_block hrow ?_
      unfold joinRowBlock
      simp [h]
    · obtain ⟨q, hq⟩ := List.exists_mem_of_ne_nil _ h
      refine ⟨rightCells B q, ?_⟩
      refine mem_joinRows_of_block hrow ?_
      unfold joinRowBlock
      rw [if_neg h]
      exact List.mem_map.2 ⟨q, hq, rfl⟩
  · intro row hrow q hq hkey
    have hqm : q ∈ matchRows A B row := by
      unfold matchRows
      exact List.mem_filter.2 ⟨hq, by simp [hkey]⟩
    have hne : matchRows A B row ≠ [] := List.ne_nil_of_mem hqm
    refine mem_joinRows_of_block hrow ?_
    unfold joinRowBlock
    rw [if_neg hne]
    exact List.mem_map.2 ⟨q, hqm, rfl⟩
  · intro row hrow h
    refine mem_joinRows_of_block hrow ?_
    unfold joinRowBlock
    simp [h]
  · exact joinRows_length A B A.rows

/-- C1 counterexample: both tables carry an ID column, so the claimed fold
should apply, yet merging the integer-keyed table with the string-keyed one
does not return a table at all: the pandas merge raises the dtype ValueError
for numeric-against-object key columns. -/
theorem mergeAll_dtype_counterexample :
    (∀ t ∈ [(⟨["ID"], [[Cell.int 1]]⟩ : Table), ⟨["ID"], [[Cell.str "P001"]]⟩],
      "ID" ∈ t.cols) ∧
    mergeAll [⟨["ID"], [[Cell.int 1]]⟩, ⟨["ID"], [[Cell.str "P001"]]⟩] =
      .error (.valueError dtypeErrMsg) :=
  ⟨by decide, rfl⟩

/-- C1 amended: for every non-empty list of rectangular tables, each
containing an ID column, whose key columns all fall in the same dtype class
(all numeric or all object), merge_all returns the fold of the list
left-to-right as repeated left joins on ID, each step preserving accumulator
rows, appending non-key columns of matching right rows, null-filling
unmatched rows, and fanning out one output row per match; with mixed key
dtype classes the underlying merge raises the pandas dtype ValueError
instead. -/
theorem mergeAll_left_join_fold (dfs : List Table) (hne : dfs ≠ [])
    (hid : ∀ t ∈ dfs, "ID" ∈ t.cols)
    (hwf : ∀ t ∈ dfs, ∀ row ∈ t.rows, row.length = t.cols.length)
    (hdt : ∀ t ∈ dfs, keyIsNumeric t = keyIsNumeric dfs.headI) :
    MergeFoldSpec dfs := by
  constructor
  · match dfs, hne, hid, hwf, hdt with
    | d :: rest, _, hid, hwf, hdt =>
      have hd : "ID" ∈ d.cols := hid d (List.mem_cons_self d rest)
      have hall : ∀ t ∈ rest, "ID" ∈ t.cols ∧
          (∀ row ∈ t.rows, row.length = t.cols.length) ∧
          keyIsNumeric t = keyIsNumeric d := by
        intro t ht
        have hmem := List.mem_cons_of_mem d ht
        refine ⟨hid t hmem, hwf t hmem, ?_⟩
        simpa using hdt t hmem
      have := mergeLoop_fold rest d hd (hwf d (List.mem_cons_self d rest)) hall
      simpa [mergeAll] using this
  · intro A B _ _
    exact leftJoinStepSpec_holds A B

theorem mergeAll_left_join_fold_witness :
    ([⟨["ID"], [[Cell.int 1]]⟩, ⟨["ID", "R"], [[Cell.int 1, Cell.int 2]]⟩]
        ≠ ([] : List Table)) ∧
    (∀ t ∈ [(⟨["ID"], [[Cell.int 1]]⟩ : Table),
        ⟨["ID", "R"], [[Cell.int 1, Cell.int 2]]⟩],
      keyIsNumeric t =
        keyIsNumeric (List.headI [(⟨["ID"], [[Cell.int 1]]⟩ : Table),
          ⟨["ID", "R"], [[Cell.int 1, Cell.int 2]]⟩])) ∧
    MergeFoldSpec [⟨["ID"], [[Cell.int 1]]⟩, ⟨["ID", "R"], [[Cell.int 1, Cell.int 2]]⟩] :=
  ⟨by decide, by decide,
    mergeAll_left_join_fold _ (by decide) (by decide) (by decide) (by decide)⟩

/-- C2: for every table with an ID column, merging the single-element list
made of it returns the table unchanged. -/
theorem mergeAll_singleton (T : Table) (_hid : "ID" ∈ T.cols) :
    mergeAll [T] = .ok T := rfl

theorem mergeAll_singleton_witness :
    ("ID" ∈ Table.cols ⟨["ID"], [[Cell.int 7]]⟩) ∧
    mergeAll [⟨["ID"], [[Cell.int 7]]⟩] = .ok ⟨["ID"], [[Cell.int 7]]⟩ :=
  ⟨by decide, mergeAll_singleton _ (by decide)⟩

theorem joinRows_all_nomatch (l r : Table) (rs : List (List Cell))
    (h : ∀ row ∈ rs, matchRows l r row = []) :
    joinRows l r rs =
      rs.map (fun row => row ++ List.replicate (rightWidth r) Cell.null) := by
  induction rs with
  | nil => rfl
  | cons a as ih =>
    rw [joinRows, List.map_cons]
    have ha : matchRows l r a = [] := h a (List.mem_cons_self a as)
    have : joinRowBlock l r a = [a ++ List.replicate (rightWidth r) Cell.null] := by
      unfold joinRowBlock; simp [ha]
    rw [this, ih (fun row hrow => h row (List.mem_cons_of_mem a hrow))]
    rfl

/-- C8 counterexample: the ID sets of the integer-keyed table and the
string-keyed table are trivially disjoint, yet left-joining them does not
produce the null-padded table with the row count of A: the pandas merge
raises the dtype ValueError for numeric-against-object key columns. -/
theorem leftJoin_disjoint_dtype_counterexample :
    (∀ row ∈ (Table.mk ["ID"] [[Cell.int 1]]).rows,
      ∀ q ∈ (Table.mk ["ID"] [[Cell.str "P001"]]).rows,
        keyOf ⟨["ID"], [[Cell.int 1]]⟩ row ≠
          keyOf ⟨["ID"], [[Cell.str "P001"]]⟩ q) ∧
    mergeAll [(⟨["ID"], [[Cell.int 1]]⟩ : Table), ⟨["ID"], [[Cell.str "P001"]]⟩] =
      .error (.valueError dtypeErrMsg) :=
  ⟨by decide, rfl⟩

/-- C8 amended: for rectangular tables A and B with ID columns of the same
dtype class (both numeric or both object) whose ID values are pairwise
distinct, the left join of A with B has exactly the rows of A, each padded
with nulls in every B-derived column; with a numeric key on one side and an
object key on the other the merge raises the pandas dtype ValueError
instead. -/
theorem leftJoin_disjoint_ids (A B : Table)
    (hA : "ID" ∈ A.cols) (hB : "ID" ∈ B.cols)
    (hdt : keyIsNumeric A = keyIsNumeric B)
    (hwf : ∀ row ∈ A.rows, row.length = A.cols.length)
    (hdisj : ∀ row ∈ A.rows, ∀ q ∈ B.rows, keyOf A row ≠ keyOf B q) :
    mergeAll [A, B] = .ok (joinTotal A B) ∧
    (joinTotal A B).rows.length = A.rows.length ∧
    ∀ row ∈ (joinTotal A B).rows,
      row.drop A.cols.length = List.replicate (rightWidth B) Cell.null := by
  have hnom : ∀ row ∈ A.rows, matchRows A B row = [] := by
    intro row hrow
    unfold matchRows
    refine List.filter_eq_nil_iff.2 ?_
    intro q hq
    simp only [decide_eq_true_eq]
    exact fun h => hdisj row hrow q hq h.symm
  have hrows : (joinTotal A B).rows =
      A.rows.map (fun row => row ++ List.replicate (rightWidth B) Cell.null) :=
    joinRows_all_nomatch A B A.rows hnom
  refine ⟨?_, ?_, ?_⟩
  · show mergeLoop A [B] = _
    have : pdMerge A B = .ok (joinTotal A B) := by
      unfold pdMerge; rw [if_pos hA, if_pos hB, if_pos hdt]
    rw [mergeLoop, this]
    rfl
  · rw [hrows, List.length_map]
  · intro row hrow
    rw [hrows] at hrow
    obtain ⟨row₀, hrow₀, rfl⟩ := List.mem_map.1 hrow
    rw [← hwf row₀ hrow₀, List.drop_left]

theorem leftJoin_disjoint_ids_witness :
    keyIsNumeric ⟨["ID", "N"], [[Cell.int 1, Cell.str "a"]]⟩ =
      keyIsNumeric ⟨["ID", "R"], [[Cell.int 2, Cell.int 9]]⟩ ∧
    ((∀ row ∈ (Table.mk ["ID", "N"] [[Cell.int 1, Cell.str "a"]]).rows,
        ∀ q ∈ (Table.mk ["ID", "R"] [[Cell.int 2, Cell.int 9]]).rows,
        keyOf ⟨["ID", "N"], [[Cell.int 1, Cell.str "a"]]⟩ row ≠
          keyOf ⟨["ID", "R"], [[Cell.int 2, Cell.int 9]]⟩ q)) ∧
    (mergeAll [⟨["ID", "N"], [[Cell.int 1, Cell.str "a"]]⟩,
        ⟨["ID", "R"], [[Cell.int 2, Cell.int 9]]⟩] =
      .ok (joinTotal ⟨["ID", "N"], [[Cell.int 1, Cell.str "a"]]⟩
        ⟨["ID", "R"], [[Cell.int 2, Cell.int 9]]⟩) ∧
    (joinTotal ⟨["ID", "N"], [[Cell.int 1, Cell.str "a"]]⟩
        ⟨["ID", "R"], [[Cell.int 2, Cell.int 9]]⟩).rows.length =
      (Table.mk ["ID", "N"] [[Cell.int 1, Cell.str "a"]]).rows.length ∧
    ∀ row ∈ (joinTotal ⟨["ID", "N"], [[Cell.int 1, Cell.str "a"]]⟩
        ⟨["ID", "R"], [[Cell.int 2, Cell.int 9]]⟩).rows,
      row.drop (Table.mk ["ID", "N"] [[Cell.int 1, Cell.str "a"]]).cols.length =
        List.replicate (rightWidth ⟨["ID", "R"], [[Cell.int 2, Cell.int 9]]⟩)
          Cell.null) :=
  ⟨by decide, by decide,
    leftJoin_disjoint_ids _ _ (by decide) (by decide) (by decide) (by decide)
      (by decide)⟩

/-- Whitespace recognised by Python str.strip and by the numeric converters
modelled here: the space, tab, newline, carriage-return, vertical-tab,
form-feed, separator-control and latin-1 space characters; whitespace from
higher unicode planes is outside the modelled character set. -/
def isSpChar (c : Char) : Bool :=
  c == ' ' || c == '\t' || c == '\n' || c == '\r' ||
  c == '\x0b' || c == '\x0c' || c == '\x1c' || c == '\x1d' ||
  c == '\x1e' || c == '\x1f' || c == '\x85' || c == '\xa0'

/-- Leading whitespace removed, as the first half of Python str.strip. -/
def dropLead (cs : List Char) : List Char := cs.dropWhile isSpChar

/-- Trailing whitespace removed, as the second half of Python str.strip. -/
def dropTrail (cs : List Char) : List Char :=
  (cs.reverse.dropWhile isSpChar).reverse

/-- Python str.strip on a string represented as its character list. -/
def trimChars (cs : List Char) : List Char := dropTrail (dropLead cs)

/-- Python str.split on a one-character separator: splitChar sep cs lists the
chunks of cs between occurrences of sep, keeping empty chunks. -/
def splitChar (sep : Char) : List Char → List (List Char)
  | [] => [[]]
  | c :: cs =>
    match splitChar sep cs with
    | [] => [[]]
    | t :: ts => if c = sep then [] :: t :: ts else (c :: t) :: ts

/-- Python str.join: parts interleaved with the separator. -/
def joinSep (sep : List Char) : List (List Char) → List Char
  | [] => []
  | [x] => x
  | x :: xs => x ++ sep ++ joinSep sep xs

/-- Text consisting of the given lines, each terminated by a newline, exactly
as the txt writer of DataManager.save emits them. -/
def joinLines : List (List Char) → List Char
  | [] => []
  | l :: ls => l ++ '\n' :: joinLines ls

/-- Decimal rendering helper, structural in its fuel so that it reduces. -/
def natToCharsAux (fuel : Nat) (n : Nat) : List Char :=
  match fuel with
  | 0 => []
  | fuel + 1 =>
    if n < 10 then [Char.ofNat (48 + n)]
    else natToCharsAux fuel (n / 10) ++ [Char.ofNat (48 + n % 10)]

/-- Decimal digits of a natural number, most significant first. -/
def natToChars (n : Nat) : List Char := natToCharsAux (n + 1) n

/-- Python str of an integer. -/
def intToChars : Int → List Char
  | .ofNat n => natToChars n
  | .negSucc m => '-' :: natToChars (m + 1)

/-- Value of a digit list read in base ten. -/
def digitsToNat (ds : List Char) : Nat :=
  ds.foldl (fun a c => a * 10 + (c.toNat - 48)) 0

/-- Parse of a non-empty all-digit chunk, as the pandas integer converter
accepts it (leading zeros included). -/
def parseNatChars (ds : List Char) : Option Nat :=
  if ds ≠ [] ∧ ds.all Char.isDigit then some (digitsToNat ds) else none

/-- Parse of an optionally signed integer chunk. -/
def parseIntChars : List Char → Option Int
  | '-' :: ds => (parseNatChars ds).map (fun n => -(n : Int))
  | '+' :: ds => (parseNatChars ds).map (fun n => (n : Int))
  | ds => (parseNatChars ds).map (fun n => (n : Int))

/-- Python str of a cell as the txt writer prints it: str of a NaN is nan,
integers in decimal, strings verbatim. -/
def charsOfCell : Cell → List Char
  | Cell.null => "nan".data
  | Cell.int n => intToChars n
  | Cell.str s => s.data

/-- Separator written by the txt writer between header names and row cells. -/
def sepJ : List Char := [' ', '|', ' ']

/-- Header line of the txt output: column names joined by the separator. -/
def headerLineOf (t : Table) : List Char :=
  joinSep sepJ (t.cols.map String.data)

/-- Data line of the txt output for one row: stringified cells joined by the
separator. -/
def rowLineOf (row : List Cell) : List Char :=
  joinSep sepJ (row.map charsOfCell)

/-- Full txt output of DataManager.save: header line then one line per row,
each line newline-terminated. -/
def txtRender (t : Table) : List Char :=
  joinLines (headerLineOf t :: t.rows.map rowLineOf)

/-- Default missing-value markers of the pandas reader. -/
def naTokens : List (List Char) :=
  ["", "#N/A", "#N/A N/A", "#NA", "-1.#IND", "-1.#QNAN", "-NaN", "-nan",
   "1.#IND", "1.#QNAN", "<NA>", "N/A", "NA", "NULL", "NaN", "None",
   "n/a", "nan", "null"].map String.data

/-- Chunks treated as missing values by the pandas reader modelled here: the
full default NA list, matched after stripping. -/
def isNaTok (t : List Char) : Bool := naTokens.any (fun w => w == t)

/-- Cell reconstructed from one chunk by the pandas reader model: missing
values become null, chunks of an integer-typed column are parsed, and chunks
of an object column keep their raw text including surrounding spaces. -/
def cellFromTok (isIntCol : Bool) (tok : List Char) : Cell :=
  let t := trimChars tok
  if isNaTok t then Cell.null
  else if isIntCol then
    match parseIntChars t with
    | some k => Cell.int k
    | none => Cell.str (String.mk tok)
  else Cell.str (String.mk tok)

/-- Chunk of a token row at a column position, empty when the row is short
(pandas fills missing trailing fields with NaN). -/
def tokOf (tr : List (List Char)) (j : Nat) : List Char := (tr.get? j).getD []

/-- Column type inference of the pandas reader model: a column is integer
typed when every chunk is missing or parses as an integer after stripping. -/
def colIsInt (tokenRows : List (List (List Char))) (j : Nat) : Bool :=
  tokenRows.all (fun tr =>
    let t := trimChars (tokOf tr j)
    isNaTok t || (parseIntChars t).isSome)

/-- Frame produced by the txt branch of DataManager.read when data is
present: the first line is stripped and split on the pipe to give column
names (each stripped), and the remaining lines are handed to pandas read_csv
with sep pipe, skiprows zero and the given names, modelled with default NA
handling and integer-or-object column inference; columns pandas would infer
as floats or bools are kept as text here, which is why the round-trip domain
below excludes such chunks. -/
def pdReadTxtFrame (content : List Char) : Table :=
  let lines := splitChar '\n' content
  let header := trimChars lines.headI
  let cols := (splitChar '|' header).map (fun c => String.mk (trimChars c))
  let dataLines := lines.tail.filter (fun l => decide (l ≠ []))
  let tokenRows := dataLines.map (splitChar '|')
  let rows := tokenRows.map (fun tr =>
    (List.range cols.length).map
      (fun j => cellFromTok (colIsInt tokenRows j) (tokOf tr j)))
  ⟨cols, rows⟩

/-- Model of the txt branch of DataManager.read including the EmptyDataError
of read_csv: with skiprows zero and blank lines skipped, a file whose data
section is empty raises EmptyDataError, which the caller turns into the
ValueError for empty files; otherwise the frame above is returned. -/
def pdReadTxt (content : List Char) : Except PyExc Table :=
  let lines := splitChar '\n' content
  let dataLines := lines.tail.filter (fun l => decide (l ≠ []))
  if dataLines = [] then .error PyExc.emptyData
  else .ok (pdReadTxtFrame content)

/-- File system model: named text files and the set of existing directories.
File contents are kept as character lists; the xlsx and json encodings are
opaque to the claims and are produced by the writer functions passed in. -/
structure FileSys where
  files : List (String × List Char)
  dirs : List String
deriving DecidableEq

/-- Content of a file, when it exists (os.path.isfile). -/
def findFile (fs : FileSys) (p : String) : Option (List Char) :=
  fs.files.lookup p

/-- Creation or overwrite of one file. -/
def writeFile (fs : FileSys) (p : String) (c : List Char) : FileSys :=
  { fs with files := (p, c) :: fs.files.filter (fun e => !(e.1 == p)) }

/-- Existence of a directory (os.path.isdir). -/
def isDir (fs : FileSys) (p : String) : Bool := fs.dirs.contains p

/-- Model of os.path.splitext on the character list of a path: the extension
starts at the last dot of the final path segment.  The Python corner case of
a dotfile with no further dot is not exercised by the paths of this
development. -/
def splitExtChars (cs : List Char) : List Char × List Char :=
  let rev := cs.reverse
  let pre := rev.takeWhile (fun c => !(c == '.') && !(c == '/'))
  match rev.drop pre.length with
  | '.' :: stem => (stem.reverse, '.' :: pre.reverse)
  | _ => (cs, [])

/-- Lower-casing of a string, as str.lower applied to an extension. -/
def lowerStr (s : String) : String := String.mk (s.data.map Char.toLower)

/-- Extension of a path as DataManager.read computes it:
os.path.splitext(path)[1].lower(). -/
def extOf (path : String) : String :=
  lowerStr (String.mk (splitExtChars path.data).2)

/-- Model of os.path.basename: the segment after the last slash. -/
def basenameChars (cs : List Char) : List Char :=
  (cs.reverse.takeWhile (fun c => !(c == '/'))).reverse

/-- Prefix token recognised by DataManager.extract_team_name. -/
def script1Tok : List Char := "SCRIPT_1_".data

/-- Python str.replace of the prefix token by the empty string, replacing
every non-overlapping occurrence left to right; fuelled so that it reduces. -/
def stripScript1Aux (fuel : Nat) (cs : List Char) : List Char :=
  match fuel with
  | 0 => cs
  | fuel + 1 =>
    match cs with
    | [] => []
    | c :: rest =>
      if script1Tok.isPrefixOf (c :: rest) then
        stripScript1Aux fuel ((c :: rest).drop script1Tok.length)
      else c :: stripScript1Aux fuel rest

/-- Replacement of every occurrence of the prefix token, as
base.replace(SCRIPT_1_, empty) in the source. -/
def stripScript1 (cs : List Char) : List Char := stripScript1Aux cs.length cs

/-- DataManager.extract_team_name: when the basename starts with the prefix
token, every occurrence of the token is removed and the result truncated at
its first dot; otherwise the stem from os.path.splitext. -/
def extract_team_name (path : String) : String :=
  let base := basenameChars path.data
  if script1Tok.isPrefixOf base then
    String.mk ((stripScript1 base).takeWhile (fun c => !(c == '.')))
  else
    String.mk (splitExtChars base).1

/-- DataManager.read: FileNotFoundError when the path is not a file, then a
dispatch on the lower-cased extension inside a try block whose handlers turn
an EmptyDataError into the ValueError for empty files and any other exception
into the ValueError that prefixes the message with Error reading file.  The
external pandas readers for xlsx and json are the arguments px and pj; the
txt branch reads the header itself and delegates to the read_csv model.  Note
that the ValueError for an unsupported format is raised inside the try block,
so the generic handler wraps it like any other failure. -/
def DataManager.read (px pj : List Char → Except PyExc Table) (fs : FileSys)
    (path : String) : Except PyErr Table :=
  match findFile fs path with
  | none => .error (.fileNotFound ("File not found: " ++ path))
  | some content =>
    let ext := extOf path
    let attempt : Except PyExc Table :=
      if ext = ".xlsx" then px content
      else if ext = ".json" then pj content
      else if ext = ".txt" then pdReadTxt content
      else .error (.exc ("Format \x27" ++ ext ++ "\x27 not supported."))
    match attempt with
    | .ok t => .ok t
    | .error PyExc.emptyData => .error (.valueError "File empty or unreadable.")
    | .error (PyExc.exc m) =>
      .error (.valueError ("Error reading file: " ++ m))

/-- State of the DataManager registry: loaded frames, their paths, and the
team name that seeds the output basename. -/
structure DataManager where
  dfs : List Table
  paths : List String
  team_name : String
deriving DecidableEq

/-- DataManager.add_file: read the file, fail with the KeyError of the
missing ID column before any mutation, otherwise append the frame and the
path and seed the team name when it is still empty.  The pair returned is
the registry state after the call together with its outcome, so that a
failure visibly leaves the state untouched. -/
def DataManager.add_file (px pj : List Char → Except PyExc Table) (fs : FileSys)
    (dm : DataManager) (path : String) : DataManager × Except PyErr Unit :=
  match DataManager.read px pj fs path with
  | .error e => (dm, .error e)
  | .ok df =>
    if "ID" ∈ df.cols then
      ({ dfs := dm.dfs ++ [df], paths := dm.paths ++ [path],
         team_name := if dm.team_name = "" then extract_team_name path
                      else dm.team_name }, .ok ())
    else (dm, .error (.keyError "Column \x27ID\x27 not found."))

/-- MergerGUI.reset_all restricted to the registry: both lists cleared and
the team name emptied. -/
def resetRegistry (_dm : DataManager) : DataManager := ⟨[], [], ""⟩

/-- Path base DataManager.save builds from the output folder, the team name
and the current date. -/
def outBase (dm : DataManager) (folder dateStr : String) : String :=
  folder ++ "/" ++ "Data_" ++ dm.team_name ++ "_" ++ dateStr

/-- DataManager.save: FileNotFoundError when the destination is not a
directory, before anything is merged or written; otherwise the merge result
is written as xlsx, json and txt under the derived base name.  The external
xlsx and json encoders are the arguments tx and jx, the txt encoding is the
modelled writer; the current date arrives as dateStr. -/
def DataManager.save (tx jx : Table → List Char) (fs : FileSys) (dm : DataManager)
    (folder dateStr : String) : FileSys × Except PyErr Unit :=
  if isDir fs folder then
    match mergeAll dm.dfs with
    | .error e => (fs, .error e)
    | .ok merged =>
      let base := outBase dm folder dateStr
      let fs1 := writeFile fs (base ++ ".xlsx") (tx merged)
      let fs2 := writeFile fs1 (base ++ ".json") (jx merged)
      let fs3 := writeFile fs2 (base ++ ".txt") (txtRender merged)
      (fs3, .ok ())
  else (fs, .error (.fileNotFound "Invalid output folder."))


theorem lookup_filter_ne {q p : String} (h : q ≠ p)
    (l : List (String × List Char)) :
    List.lookup q (l.filter (fun e => !(e.1 == p))) = List.lookup q l := by
  induction l with
  | nil => rfl
  | cons e t ih =>
    obtain ⟨a, b⟩ := e
    by_cases hap : a = p
    · subst hap
      rw [List.filter_cons]
      simp only [beq_self_eq_true, Bool.not_true, Bool.false_eq_true, if_false]
      rw [ih]
      have hq : (q == a) = false := by
        simp only [beq_eq_false_iff_ne]
        exact h
      simp [List.lookup, hq]
    · have hab : ((a, b).1 == p) = false := by
        simp only [beq_eq_false_iff_ne]
        exact hap
      rw [List.filter_cons, hab]
      simp only [Bool.not_false, if_true]
      by_cases hqa : q = a
      · subst hqa
        simp [List.lookup]
      · have hq : (q == a) = false := by
          simp only [beq_eq_false_iff_ne]
          exact hqa
        simp only [List.lookup, hq, Bool.cond_false]
        exact ih

theorem findFile_writeFile_self (fs : FileSys) (p : String) (c : List Char) :
    findFile (writeFile fs p c) p = some c := by
  unfold findFile writeFile
  simp [List.lookup]

theorem findFile_writeFile_ne (fs : FileSys) {p q : String} (h : q ≠ p)
    (c : List Char) : findFile (writeFile fs p c) q = findFile fs q := by
  unfold findFile writeFile
  have hq : (q == p) = false := by
    simp only [beq_eq_false_iff_ne]
    exact h
  simp only [List.lookup, hq, Bool.cond_false]
  exact lookup_filter_ne h fs.files

theorem append_ne_of_len {b x y : String}
    (h : x.data.length ≠ y.data.length) : b ++ x ≠ b ++ y := by
  intro he
  have hd := congrArg String.data he
  rw [String.data_append, String.data_append] at hd
  have hl := congrArg List.length hd
  simp only [List.length_append] at hl
  omega

theorem save_ok (tx jx : Table → List Char) (fs : FileSys) (dm : DataManager)
    (folder dateStr : String) (merged : Table)
    (hdir : isDir fs folder = true) (hmerge : mergeAll dm.dfs = .ok merged) :
    DataManager.save tx jx fs dm folder dateStr =
      (writeFile
        (writeFile
          (writeFile fs (outBase dm folder dateStr ++ ".xlsx") (tx merged))
          (outBase dm folder dateStr ++ ".json") (jx merged))
        (outBase dm folder dateStr ++ ".txt") (txtRender merged), .ok ()) := by
  unfold DataManager.save
  rw [if_pos hdir, hmerge]

/-- C5: a file whose extension is none of the three supported ones makes the
Loader fail, but with the generic read-error wrapper around the unsupported
format message: the dedicated ValueError is raised inside the try block whose
catch-all handler re-wraps it, so the surfaced error has the ReadError shape
instead of a distinct UnsupportedFormat kind. -/
theorem read_unsupported_ext_wrapped :
    DataManager.read (fun _ => .error PyExc.emptyData)
        (fun _ => .error PyExc.emptyData)
        ⟨[("data.csv", "x".data)], []⟩ "data.csv" =
      .error (.valueError
        "Error reading file: Format \x27.csv\x27 not supported.") := by
  rfl

/-- C7: saving into a destination that does not exist or is not a directory
fails with the InvalidOutputFolder error before anything is written: the file
system comes back unchanged, so none of the three output files is created. -/
theorem save_invalid_folder (tx jx : Table → List Char) (fs : FileSys)
    (dm : DataManager) (folder dateStr : String)
    (h : isDir fs folder = false) :
    DataManager.save tx jx fs dm folder dateStr =
      (fs, .error (.fileNotFound "Invalid output folder.")) := by
  unfold DataManager.save
  rw [if_neg (by simp [h])]

theorem save_invalid_folder_witness :
    isDir ⟨[], ["elsewhere"]⟩ "out" = false ∧
    DataManager.save (fun _ => []) (fun _ => []) ⟨[], ["elsewhere"]⟩
        ⟨[], [], ""⟩ "out" "20250101" =
      (⟨[], ["elsewhere"]⟩, .error (.fileNotFound "Invalid output folder.")) :=
  ⟨by decide, save_invalid_folder _ _ _ _ _ _ (by decide)⟩

/-- C6: when the file loads to a frame without an ID column, add_file fails
with the MissingKeyColumn KeyError and returns the registry unchanged: the
frame list, the path list and the derived team name are the old ones, because
the check happens before any mutation. -/
theorem add_file_missing_id (px pj : List Char → Except PyExc Table)
    (fs : FileSys) (dm : DataManager) (path : String) (df : Table)
    (hread : DataManager.read px pj fs path = .ok df)
    (hid : "ID" ∉ df.cols) :
    DataManager.add_file px pj fs dm path =
      (dm, .error (.keyError "Column \x27ID\x27 not found.")) := by
  unfold DataManager.add_file
  simp only [hread]
  rw [if_neg hid]

theorem add_file_missing_id_witness :
    DataManager.read (fun _ => .error PyExc.emptyData) (fun _ => .ok ⟨["X"], []⟩)
        ⟨[("a.json", "x".data)], []⟩ "a.json" = .ok ⟨["X"], []⟩ ∧
    DataManager.add_file (fun _ => .error PyExc.emptyData)
        (fun _ => .ok ⟨["X"], []⟩) ⟨[("a.json", "x".data)], []⟩
        ⟨[⟨["ID"], []⟩], ["first.json"], "T"⟩ "a.json" =
      (⟨[⟨["ID"], []⟩], ["first.json"], "T"⟩,
        .error (.keyError "Column \x27ID\x27 not found.")) :=
  ⟨by rfl, add_file_missing_id _ _ _ _ _ _ (by rfl) (by decide)⟩

/-- C10: the registry keeps the frame list and the path list aligned: a
successful add_file appends exactly one entry to each, a failed add_file
returns the registry unchanged, and reset clears both lists. -/
theorem registry_lengths (px pj : List Char → Except PyExc Table)
    (fs : FileSys) (dm : DataManager) (path : String)
    (hlen : dm.dfs.length = dm.paths.length) :
    ((DataManager.add_file px pj fs dm path).1.dfs.length =
        (DataManager.add_file px pj fs dm path).1.paths.length ∧
      ((DataManager.add_file px pj fs dm path).2 = .ok () →
        (DataManager.add_file px pj fs dm path).1.dfs.length =
          dm.dfs.length + 1 ∧
        (DataManager.add_file px pj fs dm path).1.paths.length =
          dm.paths.length + 1) ∧
      (∀ e, (DataManager.add_file px pj fs dm path).2 = .error e →
        (DataManager.add_file px pj fs dm path).1 = dm)) ∧
    (resetRegistry dm).dfs.length = 0 ∧ (resetRegistry dm).paths.length = 0 := by
  refine ⟨?_, ⟨rfl, rfl⟩⟩
  cases hread : DataManager.read px pj fs path with
  | error e =>
    simp only [DataManager.add_file, hread]
    exact ⟨hlen, fun h => absurd h (by simp), fun e2 _ => by trivial⟩
  | ok df =>
    by_cases hid : "ID" ∈ df.cols
    · simp only [DataManager.add_file, hread, if_pos hid]
      exact ⟨by simp [hlen], fun _ => ⟨by simp, by simp⟩,
        fun e2 he => absurd he (by simp)⟩
    · simp only [DataManager.add_file, hread, if_neg hid]
      exact ⟨hlen, fun h => absurd h (by simp), fun e2 _ => by trivial⟩

theorem registry_lengths_witness :
    (DataManager.mk [] [] "").dfs.length = (DataManager.mk [] [] "").paths.length ∧
    (let res := DataManager.add_file (fun _ => .error PyExc.emptyData)
        (fun _ => .ok ⟨["ID"], [[Cell.int 1]]⟩)
        ⟨[("a.json", "x".data)], []⟩ ⟨[], [], ""⟩ "a.json"
     (res.1.dfs.length = res.1.paths.length ∧
       (res.2 = .ok () →
         res.1.dfs.length = (DataManager.mk [] [] "").dfs.length + 1 ∧
         res.1.paths.length = (DataManager.mk [] [] "").paths.length + 1) ∧
       (∀ e, res.2 = .error e → res.1 = ⟨[], [], ""⟩)) ∧
     (resetRegistry ⟨[], [], ""⟩).dfs.length = 0 ∧
     (resetRegistry ⟨[], [], ""⟩).paths.length = 0) :=
  ⟨rfl, registry_lengths _ _ _ _ _ rfl⟩

/-- C9 counterexample: the basename is not seeded exactly once by the first
successfully added file: adding SCRIPT_1_.json first succeeds but extracts
the empty name, so the registry keeps an empty team name, and the next
successful add of Arsenal.json seeds the basename with Arsenal, a name
derived from the second file. -/
theorem basename_reseed_counterexample :
    (let addF := DataManager.add_file
        (fun _ => Except.error PyExc.emptyData)
        (fun _ => Except.ok ⟨["ID"], [[Cell.int 1]]⟩)
        ⟨[("SCRIPT_1_.json", "x".data), ("Arsenal.json", "x".data)], []⟩
     (addF ⟨[], [], ""⟩ "SCRIPT_1_.json").2 = Except.ok () ∧
     (addF ⟨[], [], ""⟩ "SCRIPT_1_.json").1.team_name = "" ∧
     (addF (addF ⟨[], [], ""⟩ "SCRIPT_1_.json").1 "Arsenal.json").2 =
       Except.ok () ∧
     (addF (addF ⟨[], [], ""⟩ "SCRIPT_1_.json").1 "Arsenal.json").1.team_name =
       "Arsenal" ∧
     extract_team_name "SCRIPT_1_.json" = "") :=
  ⟨rfl, rfl, rfl, rfl, rfl⟩

/-- C9 amended: a successful add_file keeps the current team name when it is
non-empty and otherwise stores extract_team_name of the added path, so the
basename is seeded by the earliest successfully added file whose extracted
name is non-empty; extract_team_name removes every occurrence of the
SCRIPT_1_ token and truncates at the first dot when the filename starts with
the token, else takes the splitext stem, and can be empty.  Save writes
exactly the three files Data basename date with extensions xlsx, json and
txt under the chosen folder and touches nothing else. -/
theorem team_name_seed_and_save_names
    (px pj : List Char → Except PyExc Table) (fs fsS : FileSys)
    (dm dmS : DataManager) (path : String) (tx jx : Table → List Char)
    (dm2 : DataManager) (folder dateStr : String) (merged : Table)
    (hadd : DataManager.add_file px pj fs dm path = (dm2, .ok ()))
    (hdir : isDir fsS folder = true)
    (hmerge : mergeAll dmS.dfs = .ok merged) :
    dm2.team_name =
      (if dm.team_name = "" then extract_team_name path else dm.team_name) ∧
    (findFile (DataManager.save tx jx fsS dmS folder dateStr).1
        (outBase dmS folder dateStr ++ ".txt") = some (txtRender merged) ∧
      findFile (DataManager.save tx jx fsS dmS folder dateStr).1
        (outBase dmS folder dateStr ++ ".json") = some (jx merged) ∧
      findFile (DataManager.save tx jx fsS dmS folder dateStr).1
        (outBase dmS folder dateStr ++ ".xlsx") = some (tx merged) ∧
      ∀ p, p ≠ outBase dmS folder dateStr ++ ".txt" →
        p ≠ outBase dmS folder dateStr ++ ".json" →
        p ≠ outBase dmS folder dateStr ++ ".xlsx" →
        findFile (DataManager.save tx jx fsS dmS folder dateStr).1 p =
          findFile fsS p) := by
  constructor
  · cases hread : DataManager.read px pj fs path with
    | error e =>
      simp only [DataManager.add_file, hread] at hadd
      exact absurd (congrArg Prod.snd hadd) (by simp)
    | ok df =>
      simp only [DataManager.add_file, hread] at hadd
      by_cases hid : "ID" ∈ df.cols
      · rw [if_pos hid] at hadd
        have h1 := congrArg Prod.fst hadd
        simp only at h1
        rw [← h1]
      · rw [if_neg hid] at hadd
        exact absurd (congrArg Prod.snd hadd) (by simp)
  · have hsave := save_ok tx jx fsS dmS folder dateStr merged hdir hmerge
    rw [hsave]
    have hjt : outBase dmS folder dateStr ++ ".json" ≠
        outBase dmS folder dateStr ++ ".txt" := append_ne_of_len (by decide)
    have hxt : outBase dmS folder dateStr ++ ".xlsx" ≠
        outBase dmS folder dateStr ++ ".txt" := append_ne_of_len (by decide)
    have hxj : outBase dmS folder dateStr ++ ".xlsx" ≠
        outBase dmS folder dateStr ++ ".json" := by
      intro he
      have hd := congrArg String.data he
      rw [String.data_append, String.data_append] at hd
      have := List.append_cancel_left hd
      cases this
    refine ⟨findFile_writeFile_self _ _ _, ?_, ?_, ?_⟩
    · rw [findFile_writeFile_ne _ hjt]
      exact findFile_writeFile_self _ _ _
    · rw [findFile_writeFile_ne _ hxt, findFile_writeFile_ne _ hxj]
      exact findFile_writeFile_self _ _ _
    · intro p hpt hpj hpx
      rw [findFile_writeFile_ne _ hpt, findFile_writeFile_ne _ hpj,
        findFile_writeFile_ne _ hpx]

theorem team_name_seed_and_save_names_witness :
    (DataManager.add_file (fun _ => Except.error PyExc.emptyData)
        (fun _ => Except.ok ⟨["ID"], [[Cell.int 1]]⟩)
        ⟨[("Arsenal.json", "x".data)], []⟩ ⟨[], [], ""⟩ "Arsenal.json").1.team_name =
      (if DataManager.team_name ⟨[], [], ""⟩ = ""
        then extract_team_name "Arsenal.json"
        else DataManager.team_name ⟨[], [], ""⟩) ∧
    (findFile (DataManager.save (fun _ => []) (fun _ => []) ⟨[], ["out"]⟩
        ⟨[⟨["ID"], [[Cell.int 5]]⟩], ["p.txt"], "A"⟩ "out" "20250101").1
        (outBase ⟨[⟨["ID"], [[Cell.int 5]]⟩], ["p.txt"], "A"⟩ "out" "20250101"
          ++ ".txt") = some (txtRender ⟨["ID"], [[Cell.int 5]]⟩) ∧
      findFile (DataManager.save (fun _ => []) (fun _ => []) ⟨[], ["out"]⟩
        ⟨[⟨["ID"], [[Cell.int 5]]⟩], ["p.txt"], "A"⟩ "out" "20250101").1
        (outBase ⟨[⟨["ID"], [[Cell.int 5]]⟩], ["p.txt"], "A"⟩ "out" "20250101"
          ++ ".json") = some ((fun (_ : Table) => ([] : List Char)) ⟨["ID"], [[Cell.int 5]]⟩) ∧
      findFile (DataManager.save (fun _ => []) (fun _ => []) ⟨[], ["out"]⟩
        ⟨[⟨["ID"], [[Cell.int 5]]⟩], ["p.txt"], "A"⟩ "out" "20250101").1
        (outBase ⟨[⟨["ID"], [[Cell.int 5]]⟩], ["p.txt"], "A"⟩ "out" "20250101"
          ++ ".xlsx") = some ((fun (_ : Table) => ([] : List Char)) ⟨["ID"], [[Cell.int 5]]⟩) ∧
      ∀ p, p ≠ outBase ⟨[⟨["ID"], [[Cell.int 5]]⟩], ["p.txt"], "A"⟩ "out"
            "20250101" ++ ".txt" →
        p ≠ outBase ⟨[⟨["ID"], [[Cell.int 5]]⟩], ["p.txt"], "A"⟩ "out"
            "20250101" ++ ".json" →
        p ≠ outBase ⟨[⟨["ID"], [[Cell.int 5]]⟩], ["p.txt"], "A"⟩ "out"
            "20250101" ++ ".xlsx" →
        findFile (DataManager.save (fun _ => []) (fun _ => []) ⟨[], ["out"]⟩
          ⟨[⟨["ID"], [[Cell.int 5]]⟩], ["p.txt"], "A"⟩ "out" "20250101").1 p =
          findFile ⟨[], ["out"]⟩ p) :=
  team_name_seed_and_save_names
    (fun _ => Except.error PyExc.emptyData)
    (fun _ => Except.ok ⟨["ID"], [[Cell.int 1]]⟩)
    ⟨[("Arsenal.json", "x".data)], []⟩ ⟨[], ["out"]⟩ ⟨[], [], ""⟩
    ⟨[⟨["ID"], [[Cell.int 5]]⟩], ["p.txt"], "A"⟩ "Arsenal.json"
    (fun _ => []) (fun _ => [])
    (DataManager.add_file (fun _ => Except.error PyExc.emptyData)
      (fun _ => Except.ok ⟨["ID"], [[Cell.int 1]]⟩)
      ⟨[("Arsenal.json", "x".data)], []⟩ ⟨[], [], ""⟩ "Arsenal.json").1
    "out" "20250101" ⟨["ID"], [[Cell.int 5]]⟩ rfl rfl rfl
